import Mathlib

/-!
Verification of the task-manager service (Go) against its specification.

The embedding below follows the source files:
- internal/models/task.go        : the Task entity and request types
- internal/repository/task_repository.go : the store layer (SQL semantics
  embedded as operations on a list of rows)
- internal/services (task service): business rules atop the store
- internal/workers (ReminderWorker): the due-task scanner loop

Go's time.Time is embedded as an integer number of nanoseconds since the
Unix epoch.  time.Time.Unix() floors to whole seconds (the nanosecond
field of a Go time is always in [0, 1e9)), and the zero value of
time.Time is January 1 of year 1 UTC, which is -62135596800 seconds
before the Unix epoch (Go's unixToInternal constant).
-/

namespace TaskManager

/-- Go time.Time, as nanoseconds since the Unix epoch. -/
abbrev Time := Int

/-- Nanoseconds per second. -/
def nsPerSec : Int := 1000000000

/-- The zero value of Go's time.Time (Jan 1, year 1 UTC) in nanoseconds
since the Unix epoch. -/
def goZeroTime : Time := -62135596800 * nsPerSec

/-- time.Time.Unix(): whole seconds since the epoch, rounded toward
negative infinity (Go stores sec plus a nanosecond field in [0, 1e9)). -/
def timeUnix (t : Time) : Int := Int.fdiv t nsPerSec

/-- time.Unix(sec, 0): the instant sec whole seconds after the epoch. -/
def timeFromUnix (s : Int) : Time := s * nsPerSec

/-- models.Task (internal/models/task.go). -/
structure Task where
  id : Int
  title : String
  description : String
  dueDate : Time
  isCompleted : Bool
  createdAt : Time
  updatedAt : Time
deriving DecidableEq

/-- models.CreateTaskRequest. -/
structure CreateTaskRequest where
  title : String
  description : String
  dueDate : Time
deriving DecidableEq

/-- models.UpdateTaskRequest.  A field left absent in the JSON body
decodes to the Go zero value: empty string, or the zero time.Time. -/
structure UpdateTaskRequest where
  title : String
  description : String
  dueDate : Time
deriving DecidableEq

/-- The tasks table: the rows it holds and the next BIGSERIAL id. -/
structure Store where
  rows : List Task
  nextId : Int
deriving DecidableEq

/-- ORDER BY created_at DESC, as a relation on rows. -/
def createdDesc (a b : Task) : Prop := b.createdAt ≤ a.createdAt

instance : DecidableRel createdDesc := fun a b =>
  inferInstanceAs (Decidable (b.createdAt ≤ a.createdAt))

instance : IsTotal Task createdDesc :=
  ⟨fun a b => le_total b.createdAt a.createdAt⟩

instance : IsTrans Task createdDesc :=
  ⟨fun _ _ _ h1 h2 => le_trans h2 h1⟩

/-- ORDER BY due_date ASC, as a relation on rows. -/
def dueAsc (a b : Task) : Prop := a.dueDate ≤ b.dueDate

instance : DecidableRel dueAsc := fun a b =>
  inferInstanceAs (Decidable (a.dueDate ≤ b.dueDate))

instance : IsTotal Task dueAsc :=
  ⟨fun a b => le_total a.dueDate b.dueDate⟩

instance : IsTrans Task dueAsc :=
  ⟨fun _ _ _ h1 h2 => le_trans h1 h2⟩

namespace taskRepository

/-- taskRepository.Create: INSERT (title, description, due_date,
created_at, updated_at) VALUES (...) RETURNING id, with now = time.Now()
taken once for both timestamps.  is_completed is not in the column list,
so the row gets the schema default FALSE.  On success the function sets
task.ID, task.CreatedAt and task.UpdatedAt on the passed struct; the
other fields of the returned struct are the caller's. -/
def Create (s : Store) (now : Time) (task : Task) : Task × Store :=
  let row : Task :=
    { id := s.nextId, title := task.title, description := task.description,
      dueDate := task.dueDate, isCompleted := false,
      createdAt := now, updatedAt := now }
  ({ task with id := s.nextId, createdAt := now, updatedAt := now },
   { rows := s.rows ++ [row], nextId := s.nextId + 1 })

/-- taskRepository.GetByID: SELECT ... WHERE id = $1 via QueryRow;
sql.ErrNoRows is translated to a nil task with nil error, modelled as
none. -/
def GetByID (s : Store) (id : Int) : Option Task :=
  s.rows.find? (fun t => t.id = id)

/-- taskRepository.GetAll as written in src: SELECT all rows ORDER BY
created_at DESC, with no LIMIT/OFFSET and no count. -/
def GetAll (s : Store) : List Task :=
  List.insertionSort createdDesc s.rows

/-- Modelled from the spec: the paginated repository read
GetAll(ctx, limit, offset) returning (tasks, totalCount, error) that the
service layer calls (the repository file in src only contains the
unpaginated GetAll above, so the paginated implementation is missing
from src).  Per the spec it returns a page of tasks ordered by creation
time, most recent first, plus the total count of tasks matching the
unfiltered query. -/
def GetAllPaged (s : Store) (limit offset : Nat) : List Task × Nat :=
  (((List.insertionSort createdDesc s.rows).drop offset).take limit,
   s.rows.length)

/-- taskRepository.Update: UPDATE tasks SET title, description,
due_date, updated_at WHERE id = task.ID; it first sets task.UpdatedAt to
time.Now() and returns that struct's fields to the row.  The number of
affected rows is not inspected. -/
def Update (s : Store) (now : Time) (task : Task) : Task × Store :=
  let task' : Task := { task with updatedAt := now }
  (task',
   { s with rows := s.rows.map (fun r =>
       if r.id = task.id then
         { r with title := task.title, description := task.description,
                  dueDate := task.dueDate, updatedAt := now }
       else r) })

/-- taskRepository.MarkComplete: UPDATE tasks SET is_completed = true,
updated_at = now WHERE id = $2.  The number of affected rows is not
inspected, so a missing id is indistinguishable from success. -/
def MarkComplete (s : Store) (now : Time) (id : Int) : Store :=
  { s with rows := s.rows.map (fun r =>
      if r.id = id then { r with isCompleted := true, updatedAt := now }
      else r) }

/-- taskRepository.Delete: DELETE FROM tasks WHERE id = $1.  The number
of affected rows is not inspected. -/
def Delete (s : Store) (id : Int) : Store :=
  { s with rows := s.rows.filter (fun r => r.id != id) }

/-- taskRepository.GetDueTasks: SELECT ... WHERE due_date BETWEEN $1 AND
$2 AND is_completed = false ORDER BY due_date ASC.  SQL BETWEEN is
inclusive on both ends. -/
def GetDueTasks (s : Store) (fromT toT : Time) : List Task :=
  List.insertionSort dueAsc
    (s.rows.filter (fun t =>
      decide (fromT ≤ t.dueDate) && decide (t.dueDate ≤ toT) && !t.isCompleted))

end taskRepository

/-- The service-level error taxonomy (services.ErrInvalidInput,
services.ErrTaskNotFound). -/
inductive ServiceError
  | invalidInput
  | taskNotFound
deriving DecidableEq

namespace taskService

/-- taskService.CreateTask: rejects an empty title with ErrInvalidInput
before touching the store; otherwise builds a Task with
IsCompleted = false and the request's fields and has the store persist
it. -/
def CreateTask (s : Store) (now : Time) (req : CreateTaskRequest) :
    Except ServiceError Task × Store :=
  if req.title = "" then (.error .invalidInput, s)
  else
    let task : Task :=
      { id := 0, title := req.title, description := req.description,
        dueDate := req.dueDate, isCompleted := false,
        createdAt := goZeroTime, updatedAt := goZeroTime }
    let p := taskRepository.Create s now task
    (.ok p.1, p.2)

/-- taskService.GetTask: a nil task from the store (no row) is
translated to ErrTaskNotFound. -/
def GetTask (s : Store) (id : Int) : Except ServiceError Task :=
  match taskRepository.GetByID s id with
  | none => .error .taskNotFound
  | some t => .ok t

/-- taskService.GetAllTasks: forwards limit and offset to the paginated
repository read and returns its page and total count (the repository
side is GetAllPaged, modelled from the spec). -/
def GetAllTasks (s : Store) (limit offset : Nat) : List Task × Nat :=
  taskRepository.GetAllPaged s limit offset

/-- taskService.UpdateTask: fetches the existing task (NotFound if
absent), overwrites title and description when the request strings are
non-empty and dueDate when the request time is not the zero time.Time,
then persists through taskRepository.Update. -/
def UpdateTask (s : Store) (now : Time) (id : Int) (req : UpdateTaskRequest) :
    Except ServiceError Task × Store :=
  match GetTask s id with
  | .error e => (.error e, s)
  | .ok existingTask =>
    let t1 := if req.title ≠ "" then { existingTask with title := req.title }
              else existingTask
    let t2 := if req.description ≠ "" then { t1 with description := req.description }
              else t1
    let t3 := if req.dueDate ≠ goZeroTime then { t2 with dueDate := req.dueDate }
              else t2
    let p := taskRepository.Update s now t3
    (.ok p.1, p.2)

/-- taskService.MarkTaskComplete: returns the store call's result
directly; the store call never reports a missing id. -/
def MarkTaskComplete (s : Store) (now : Time) (id : Int) :
    Except ServiceError Unit × Store :=
  (.ok (), taskRepository.MarkComplete s now id)

/-- taskService.DeleteTask: returns the store call's result directly;
the store call never reports a missing id. -/
def DeleteTask (s : Store) (id : Int) : Except ServiceError Unit × Store :=
  (.ok (), taskRepository.Delete s id)

/-- taskService.GetDueTasks: converts the Unix-second bounds with
time.Unix(sec, 0) and queries the store. -/
def GetDueTasks (s : Store) (fromU toU : Int) : List Task :=
  taskRepository.GetDueTasks s (timeFromUnix fromU) (timeFromUnix toU)

end taskService

/-- One emitted reminder record (the fields interpolated into the
worker's log line). -/
structure Reminder where
  id : Int
  title : String
  due : Time
deriving DecidableEq

/-- The reminder record emitted for one task. -/
def mkReminder (t : Task) : Reminder := ⟨t.id, t.title, t.dueDate⟩

namespace ReminderWorker

/-- ReminderWorker.checkDueTasks: from = now.Unix(),
to = now.Add(lookahead).Unix(), then taskService.GetDueTasks, then one
log line per returned task. -/
def checkDueTasks (s : Store) (now lookahead : Time) : List Reminder :=
  let fromU := timeUnix now
  let toU := timeUnix (now + lookahead)
  (taskService.GetDueTasks s fromU toU).map mkReminder

/-- The state of the worker loop: in the for/select loop, or returned. -/
inductive WorkerState
  | running
  | stopped
deriving DecidableEq

/-- One event the select statement can receive: a ticker fire whose scan
cycle observes a store result (the store collaborator may fail), or the
cancellation of the context. -/
inductive WorkerEvent
  | tick (scan : Except String (List Task))
  | cancel

/-- What one scan cycle emits (checkDueTasks): on a store error it logs
and emits no reminders; on success it emits one reminder per task. -/
def tickReminders : Except String (List Task) → List Reminder
  | .error _ => []
  | .ok tasks => tasks.map mkReminder

/-- ReminderWorker.Start's for/select loop, run over a finite trace of
events: a tick runs one scan cycle and loops; ctx.Done() returns,
leaving later events unprocessed. -/
def Start : List WorkerEvent → WorkerState × List Reminder
  | [] => (.running, [])
  | .cancel :: _ => (.stopped, [])
  | .tick scan :: rest =>
    let p := Start rest
    (p.1, tickReminders scan ++ p.2)

end ReminderWorker

/-! Concrete stores used to evaluate the operations on small inputs. -/

/-- A task with id 1, not completed, created and last updated at time 5. -/
def exTask1 : Task :=
  { id := 1, title := "task one", description := "d1", dueDate := 100,
    isCompleted := false, createdAt := 5, updatedAt := 5 }

/-- A store holding only exTask1. -/
def exStore1 : Store := { rows := [exTask1], nextId := 2 }

/-- An incomplete task due exactly at the whole second 1 (1e9 ns). -/
def dueTask : Task :=
  { id := 1, title := "pay rent", description := "", dueDate := 1000000000,
    isCompleted := false, createdAt := 0, updatedAt := 0 }

/-- A store holding only dueTask. -/
def dueStore : Store := { rows := [dueTask], nextId := 2 }

/-- A wake instant one nanosecond after the whole second 1. -/
def exNow : Time := 1000000001

/-- A one-second lookahead window. -/
def exLookahead : Time := 1000000000

/-- A task created at time 1 (the older of the two). -/
def pageTaskOld : Task :=
  { id := 1, title := "old", description := "", dueDate := 50,
    isCompleted := false, createdAt := 1, updatedAt := 1 }

/-- A task created at time 2 (the more recent of the two). -/
def pageTaskNew : Task :=
  { id := 2, title := "new", description := "", dueDate := 60,
    isCompleted := false, createdAt := 2, updatedAt := 2 }

/-- A store holding exactly two tasks, the older one first in row order. -/
def pageStore : Store := { rows := [pageTaskOld, pageTaskNew], nextId := 3 }

/-- An incomplete task due at time 3. -/
def dueA : Task :=
  { id := 1, title := "a", description := "", dueDate := 3,
    isCompleted := false, createdAt := 0, updatedAt := 0 }

/-- A completed task due at time 7. -/
def dueB : Task :=
  { id := 2, title := "b", description := "", dueDate := 7,
    isCompleted := true, createdAt := 0, updatedAt := 0 }

/-- An incomplete task due at time 2. -/
def dueC : Task :=
  { id := 3, title := "c", description := "", dueDate := 2,
    isCompleted := false, createdAt := 0, updatedAt := 0 }

/-- A store mixing completed and incomplete tasks with varied due dates. -/
def windowStore : Store := { rows := [dueA, dueB, dueC], nextId := 4 }

/-! Theorems. -/

/-- C2: markComplete on an id that identifies no task reports success
(the store UPDATE ignores the affected-row count), not NotFound: on a
store whose only task has id 1, MarkTaskComplete for the absent id 42
returns ok while GetByID 42 is none.  The positive half of the claim
does hold: for the existing id 1 the row gets isCompleted = true and
updatedAt refreshed to now = 10. -/
theorem MarkTaskComplete_missing_id_ok :
    (taskService.MarkTaskComplete exStore1 10 42).1 = .ok () ∧
    taskRepository.GetByID exStore1 42 = none ∧
    (taskService.MarkTaskComplete exStore1 10 1).2.rows =
      [{ exTask1 with isCompleted := true, updatedAt := 10 }] := by
  refine ⟨rfl, ?_, ?_⟩ <;> decide

/-- C3: delete on an id that identifies no task reports success (the
store DELETE ignores the affected-row count), not NotFound: on a store
whose only task has id 1, DeleteTask for the absent id 99 returns ok
while GetByID 99 is none.  The positive half of the claim does hold:
deleting the existing id 1 removes the row permanently, so a subsequent
GetTask 1 fails with taskNotFound. -/
theorem DeleteTask_missing_id_ok :
    (taskService.DeleteTask exStore1 99).1 = .ok () ∧
    taskRepository.GetByID exStore1 99 = none ∧
    taskService.GetTask (taskService.DeleteTask exStore1 1).2 1 =
      .error .taskNotFound :=
  ⟨rfl, by decide, rfl⟩

/-- C4 counterexample: the scanner does not call dueBetween with exactly
the endpoints now and now + lookahead.  It truncates both to whole Unix
seconds (now.Unix() followed by time.Unix(sec, 0)), so at the wake
instant 1000000001 ns with a 1 s lookahead, a task due at 1000000000 ns
(strictly before now, hence outside the claimed window) is still
reported. -/
theorem checkDueTasks_window_counterexample :
    ReminderWorker.checkDueTasks dueStore exNow exLookahead ≠
      (taskRepository.GetDueTasks dueStore exNow (exNow + exLookahead)).map
        mkReminder := by
  decide

/-- C4 (amended): on every wake the scanner computes from = now and
to = now + lookahead truncated to whole Unix seconds (the Unix()/
time.Unix(sec, 0) round-trip) and calls the store's GetDueTasks with
exactly those two endpoints, then emits one reminder record carrying the
task's id, title and due timestamp per returned task. -/
theorem checkDueTasks_spec (s : Store) (now la : Time) :
    ReminderWorker.checkDueTasks s now la =
      (taskRepository.GetDueTasks s (timeFromUnix (timeUnix now))
        (timeFromUnix (timeUnix (now + la)))).map mkReminder ∧
    (ReminderWorker.checkDueTasks s now la).length =
      (taskRepository.GetDueTasks s (timeFromUnix (timeUnix now))
        (timeFromUnix (timeUnix (now + la)))).length ∧
    ∀ r ∈ ReminderWorker.checkDueTasks s now la,
      ∃ t ∈ taskRepository.GetDueTasks s (timeFromUnix (timeUnix now))
          (timeFromUnix (timeUnix (now + la))),
        r.id = t.id ∧ r.title = t.title ∧ r.due = t.dueDate := by
  refine ⟨rfl, by simp [ReminderWorker.checkDueTasks, taskService.GetDueTasks], ?_⟩
  intro r hr
  simp only [ReminderWorker.checkDueTasks, taskService.GetDueTasks,
    List.mem_map] at hr
  obtain ⟨t, ht, rfl⟩ := hr
  exact ⟨t, ht, rfl, rfl, rfl⟩

/-- C1: list(limit, offset) returns at most limit tasks, namely the page
obtained by skipping the first offset tasks of the created-descending
ordering (the ORDER BY created_at DESC of the store's read), together
with the total row count; the page itself is ordered most recently
created first.  Scenario: with exactly the 2 tasks of pageStore,
list(10, 0) returns total 2 and both tasks, newest first. -/
theorem GetAllTasks_spec :
    (∀ (s : Store) (limit offset : Nat),
       (taskService.GetAllTasks s limit offset).1.length ≤ limit ∧
       (taskService.GetAllTasks s limit offset).2 = s.rows.length ∧
       (taskService.GetAllTasks s limit offset).1 =
         ((taskRepository.GetAll s).drop offset).take limit ∧
       (taskService.GetAllTasks s limit offset).1.Pairwise createdDesc) ∧
    (taskService.GetAllTasks pageStore 10 0).2 = 2 ∧
    (taskService.GetAllTasks pageStore 10 0).1 = [pageTaskNew, pageTaskOld] := by
  refine ⟨fun s limit offset => ⟨List.length_take_le _ _, rfl, rfl, ?_⟩,
    by decide, by decide⟩
  have hs : (List.insertionSort createdDesc s.rows).Pairwise createdDesc :=
    List.sorted_insertionSort createdDesc s.rows
  have hsub :
      List.Sublist
        (((List.insertionSort createdDesc s.rows).drop offset).take limit)
        (List.insertionSort createdDesc s.rows) :=
    (List.take_sublist _ _).trans (List.drop_sublist _ _)
  exact List.Pairwise.sublist hsub hs

/-- UpdateTask on an id the store resolves to t rewrites the service
call as: merge the non-empty request fields over t, then write through
the store's Update with the current instant. -/
theorem UpdateTask_eq (s : Store) (now : Time) (id : Int)
    (req : UpdateTaskRequest) (t : Task)
    (hget : taskRepository.GetByID s id = some t) :
    taskService.UpdateTask s now id req =
      (.ok (taskRepository.Update s now
         { t with
             title := if req.title = "" then t.title else req.title,
             description := if req.description = "" then t.description
                            else req.description,
             dueDate := if req.dueDate = goZeroTime then t.dueDate
                        else req.dueDate }).1,
       (taskRepository.Update s now
         { t with
             title := if req.title = "" then t.title else req.title,
             description := if req.description = "" then t.description
                            else req.description,
             dueDate := if req.dueDate = goZeroTime then t.dueDate
                        else req.dueDate }).2) := by
  have hg : taskService.GetTask s id = .ok t := by
    simp [taskService.GetTask, hget]
  by_cases h1 : req.title = "" <;> by_cases h2 : req.description = "" <;>
    by_cases h3 : req.dueDate = goZeroTime <;>
    simp [taskService.UpdateTask, hg, h1, h2, h3]

/-- Every row after a store Update keeps its id, isCompleted flag and
createdAt timestamp: the UPDATE statement writes only title,
description, due_date and updated_at. -/
theorem Update_rows_frame (s : Store) (now : Time) (task : Task) :
    ∀ u ∈ (taskRepository.Update s now task).2.rows,
      ∃ u0 ∈ s.rows, u.id = u0.id ∧ u.isCompleted = u0.isCompleted ∧
        u.createdAt = u0.createdAt := by
  intro u hu
  simp only [taskRepository.Update, List.mem_map] at hu
  obtain ⟨u0, h0, rfl⟩ := hu
  refine ⟨u0, h0, ?_⟩
  by_cases h : u0.id = task.id <;> simp [h]

/-- C6: on an existing id, update overwrites exactly the request fields
that are non-empty (title, description) or not the zero time (dueDate),
leaves the others at the stored task's values, keeps the id, and the
returned merged task's updatedAt is refreshed to the current instant,
strictly above the stored one when the clock has advanced. -/
theorem UpdateTask_spec (s : Store) (now : Time) (id : Int)
    (req : UpdateTaskRequest) (t : Task)
    (hget : taskRepository.GetByID s id = some t)
    (hclock : t.updatedAt < now) :
    ∃ t', (taskService.UpdateTask s now id req).1 = .ok t' ∧
      t'.title = (if req.title = "" then t.title else req.title) ∧
      t'.description = (if req.description = "" then t.description
                        else req.description) ∧
      t'.dueDate = (if req.dueDate = goZeroTime then t.dueDate
                    else req.dueDate) ∧
      t'.id = t.id ∧ t'.updatedAt = now ∧ t.updatedAt < t'.updatedAt := by
  rw [UpdateTask_eq s now id req t hget]
  exact ⟨_, rfl, rfl, rfl, rfl, rfl, rfl, hclock⟩

/-- C6 witness: updating task 1 of exStore1 at instant 10 with only the
title set (description empty, dueDate the zero time). -/
theorem UpdateTask_spec_witness :
    taskRepository.GetByID exStore1 1 = some exTask1 ∧
    exTask1.updatedAt < 10 ∧
    ∃ t', (taskService.UpdateTask exStore1 10 1
             ⟨"retitled", "", goZeroTime⟩).1 = .ok t' ∧
      t'.title = (if ("retitled" : String) = "" then exTask1.title
                  else "retitled") ∧
      t'.description = (if ("" : String) = "" then exTask1.description
                        else "") ∧
      t'.dueDate = (if goZeroTime = goZeroTime then exTask1.dueDate
                    else goZeroTime) ∧
      t'.id = exTask1.id ∧ t'.updatedAt = 10 ∧
      exTask1.updatedAt < t'.updatedAt :=
  ⟨by decide, by decide,
   UpdateTask_spec exStore1 10 1 ⟨"retitled", "", goZeroTime⟩ exTask1
     (by decide) (by decide)⟩

/-- C10: an update never changes a task's isCompleted flag or createdAt
timestamp: the returned merged task keeps both from the stored task, and
every row of the store after the write keeps its id, isCompleted and
createdAt (the persisted UPDATE sets only title, description, due_date
and updated_at). -/
theorem UpdateTask_frame (s : Store) (now : Time) (id : Int)
    (req : UpdateTaskRequest) (t : Task)
    (hget : taskRepository.GetByID s id = some t) :
    ∃ t', (taskService.UpdateTask s now id req).1 = .ok t' ∧
      t'.isCompleted = t.isCompleted ∧ t'.createdAt = t.createdAt ∧
      ∀ u ∈ (taskService.UpdateTask s now id req).2.rows,
        ∃ u0 ∈ s.rows, u.id = u0.id ∧ u.isCompleted = u0.isCompleted ∧
          u.createdAt = u0.createdAt := by
  rw [UpdateTask_eq s now id req t hget]
  exact ⟨_, rfl, rfl, rfl, Update_rows_frame s now _⟩

/-- C10 witness: updating task 1 of exStore1 at instant 10 with a
request that sets all three fields. -/
theorem UpdateTask_frame_witness :
    taskRepository.GetByID exStore1 1 = some exTask1 ∧
    ∃ t', (taskService.UpdateTask exStore1 10 1 ⟨"x", "y", 77⟩).1 = .ok t' ∧
      t'.isCompleted = exTask1.isCompleted ∧
      t'.createdAt = exTask1.createdAt ∧
      ∀ u ∈ (taskService.UpdateTask exStore1 10 1 ⟨"x", "y", 77⟩).2.rows,
        ∃ u0 ∈ exStore1.rows, u.id = u0.id ∧
          u.isCompleted = u0.isCompleted ∧ u.createdAt = u0.createdAt :=
  ⟨by decide,
   UpdateTask_frame exStore1 10 1 ⟨"x", "y", 77⟩ exTask1 (by decide)⟩

/-- C7: a create request with an empty title fails with invalidInput and
leaves the store exactly as it was (the store is never invoked); with a
non-empty title, create persists a new task carrying the request's
fields, isCompleted = false, the store-assigned id (the table's next
serial) and the store-assigned timestamps, and returns it. -/
theorem CreateTask_spec (s : Store) (now : Time) (req : CreateTaskRequest) :
    (req.title = "" →
       taskService.CreateTask s now req = (.error .invalidInput, s)) ∧
    (req.title ≠ "" →
       ∃ t, (taskService.CreateTask s now req).1 = .ok t ∧
         t.isCompleted = false ∧ t.id = s.nextId ∧
         t.title = req.title ∧ t.description = req.description ∧
         t.dueDate = req.dueDate ∧ t.createdAt = now ∧ t.updatedAt = now ∧
         t ∈ (taskService.CreateTask s now req).2.rows) := by
  constructor
  · intro h
    simp [taskService.CreateTask, h]
  · intro h
    refine ⟨{ id := s.nextId, title := req.title,
              description := req.description, dueDate := req.dueDate,
              isCompleted := false, createdAt := now, updatedAt := now },
            ?_, rfl, rfl, rfl, rfl, rfl, rfl, rfl, ?_⟩ <;>
      simp [taskService.CreateTask, taskRepository.Create, h]

/-- C7 witness: on exStore1 at instant 7, the empty-titled request fails
with invalidInput leaving the store unchanged, and a non-empty request
persists and returns the new task with id 2 (the next serial). -/
theorem CreateTask_spec_witness :
    taskService.CreateTask exStore1 7 ⟨"", "d", 50⟩ =
      (.error .invalidInput, exStore1) ∧
    ∃ t, (taskService.CreateTask exStore1 7 ⟨"buy milk", "d", 50⟩).1 =
        .ok t ∧
      t.isCompleted = false ∧ t.id = exStore1.nextId ∧
      t.title = "buy milk" ∧ t.description = "d" ∧
      t.dueDate = 50 ∧ t.createdAt = 7 ∧ t.updatedAt = 7 ∧
      t ∈ (taskService.CreateTask exStore1 7 ⟨"buy milk", "d", 50⟩).2.rows :=
  ⟨(CreateTask_spec exStore1 7 ⟨"", "d", 50⟩).1 rfl,
   (CreateTask_spec exStore1 7 ⟨"buy milk", "d", 50⟩).2 (by decide)⟩

/-- Membership in the store's due-window query: exactly the rows that
are incomplete and due inside the inclusive window. -/
theorem mem_GetDueTasks {s : Store} {fromT toT : Time} {t : Task} :
    t ∈ taskRepository.GetDueTasks s fromT toT ↔
      t ∈ s.rows ∧ fromT ≤ t.dueDate ∧ t.dueDate ≤ toT ∧ t.isCompleted = false := by
  simp [taskRepository.GetDueTasks, List.mem_filter, and_assoc]

/-- The due-window query is sorted by due date ascending. -/
theorem sorted_GetDueTasks (s : Store) (fromT toT : Time) :
    List.Sorted dueAsc (taskRepository.GetDueTasks s fromT toT) :=
  List.sorted_insertionSort dueAsc _

/-- C5: for timestamps fromT ≤ toT, every task the store's dueBetween
query returns is incomplete with a due date inside the inclusive window
[fromT, toT], and the returned list is ordered by due date ascending. -/
theorem GetDueTasks_spec (s : Store) (fromT toT : Time) (h : fromT ≤ toT) :
    (∀ t ∈ taskRepository.GetDueTasks s fromT toT,
       t.isCompleted = false ∧ fromT ≤ t.dueDate ∧ t.dueDate ≤ toT) ∧
    (taskRepository.GetDueTasks s fromT toT).Pairwise dueAsc := by
  refine ⟨fun t ht => ?_, sorted_GetDueTasks s fromT toT⟩
  obtain ⟨-, h1, h2, h3⟩ := mem_GetDueTasks.mp ht
  exact ⟨h3, h1, h2⟩

/-- C5 witness: the window [0, 10] on windowStore. -/
theorem GetDueTasks_spec_witness :
    (0 : Int) ≤ 10 ∧
    ((∀ t ∈ taskRepository.GetDueTasks windowStore 0 10,
        t.isCompleted = false ∧ (0 : Int) ≤ t.dueDate ∧ t.dueDate ≤ 10) ∧
     (taskRepository.GetDueTasks windowStore 0 10).Pairwise dueAsc) :=
  ⟨by decide, GetDueTasks_spec windowStore 0 10 (by decide)⟩

/-- C8: when no row of the store carries the id, GetTask translates the
store's no-row answer into the domain error taskNotFound; when the store
finds a row for the id, GetTask returns exactly that stored task, which
is a row of the store with the queried id. -/
theorem GetTask_spec (s : Store) (id : Int) :
    ((∀ t ∈ s.rows, t.id ≠ id) →
       taskService.GetTask s id = .error .taskNotFound) ∧
    (∀ t, taskRepository.GetByID s id = some t →
       taskService.GetTask s id = .ok t ∧ t ∈ s.rows ∧ t.id = id) := by
  constructor
  · intro h
    have hnone : taskRepository.GetByID s id = none := by
      simp only [taskRepository.GetByID, List.find?_eq_none, decide_eq_true_eq]
      exact h
    simp [taskService.GetTask, hnone]
  · intro t ht
    refine ⟨by simp [taskService.GetTask, ht], List.mem_of_find?_eq_some ht, ?_⟩
    have := List.find?_some ht
    exact of_decide_eq_true this

/-- C8 witness: on exStore1, id 42 is absent and id 1 resolves to
exTask1. -/
theorem GetTask_spec_witness :
    taskService.GetTask exStore1 42 = .error .taskNotFound ∧
    (taskService.GetTask exStore1 1 = .ok exTask1 ∧
     exTask1 ∈ exStore1.rows ∧ exTask1.id = 1) :=
  ⟨(GetTask_spec exStore1 42).1 (by decide),
   (GetTask_spec exStore1 1).2 exTask1 (by decide)⟩

/-- C9: the scanner loop stops exactly on the cancellation event: over
every finite event trace, the loop ends in the stopped state iff the
trace contains a cancel; a tick, whatever its scan outcome (including a
store failure), leaves the loop running into the rest of the trace, with
the cycle's reminders emitted before the rest's. -/
theorem Start_stops_iff_cancel :
    (∀ events : List ReminderWorker.WorkerEvent,
       (ReminderWorker.Start events).1 = .stopped ↔
         ReminderWorker.WorkerEvent.cancel ∈ events) ∧
    (∀ scan rest, ReminderWorker.Start (.tick scan :: rest) =
       ((ReminderWorker.Start rest).1,
        ReminderWorker.tickReminders scan ++ (ReminderWorker.Start rest).2)) := by
  refine ⟨?_, fun scan rest => rfl⟩
  intro events
  induction events with
  | nil => simp [ReminderWorker.Start]
  | cons e rest ih =>
    cases e with
    | cancel => simp [ReminderWorker.Start]
    | tick scan => simp [ReminderWorker.Start, ih]

end TaskManager
